import Mathlib

/-!
# httpx: a shallow embedding of the request helpers

The Go package `httpx` wraps `net/http`: it builds requests (`request_data.go`,
`request_param.go`), merges headers and cookies and runs the call (`http.go`),
retries on transport errors and listed status codes (`retry.go`) and buffers
response bodies (`http.go`, `Response`).

Conventions of the embedding.

* A Go `string` and a Go `[]byte` are both a Lean `String` (the text held); the
  nil slice is the empty string.
* A Go `map[string]V` is the list of its entries in the order a `range` visits
  them; reading is `GoMap.lookup`, the assignment `m[k] = v` is `GoMap.assign`.
* A Go `(value, error)` result is a pair of options, `none` standing for `nil`.
* The network is explicit state (`Net`): how many times `http.Client.Do` ran,
  which requests it was handed, which bodies were closed, how long the code slept.
  The transport is a function of the invocation index and the request.
-/

namespace Httpx

/-! ## Go maps -/

/-- A Go `map[string]V`: its entries, in the order `range` visits them. -/
structure GoMap (β : Type) where
  entries : List (String × β)
deriving Repr

/-- The empty map, `make(map[string]V)` or a nil map that is only read. -/
def GoMap.empty {β : Type} : GoMap β := ⟨[]⟩

/-- Reading `m[k]`: `none` when the key is absent. -/
def GoMap.lookup {β : Type} (m : GoMap β) (k : String) : Option β :=
  List.lookup k m.entries

/-- The assignment `m[k] = v`: the entry for `k` is replaced or created. -/
def GoMap.assign {β : Type} (m : GoMap β) (k : String) (v : β) : GoMap β :=
  ⟨(k, v) :: m.entries.filter (fun e => !(e.1 == k))⟩

/-! ## net/http values -/

/-- A duration in nanoseconds (`time.Duration`). -/
abbrev Duration := Int

/-- A byte slice; see the conventions above. -/
abbrev Bytes := String

/-- An error returned by `http.Client.Do`. -/
structure TransportError where
  msg : String
deriving DecidableEq, Repr

/-- The errors this package returns to its caller. -/
inductive GoError where
  /-- an error of the transport, returned as it is -/
  | transport (e : TransportError)
  /-- `fmt.Errorf("request failed after %d retries: %w", config.MaxRetries, err)` -/
  | retriesFailed (maxRetries : Int) (cause : Option TransportError)
  /-- `fmt.Errorf("marshal data failed: %v", err)` -/
  | marshalFailed (cause : String)
  /-- an error of `http.NewRequest`, returned as it is -/
  | newRequest (msg : String)
deriving DecidableEq, Repr

/-- A `*http.Response`: the status code and the identity of its body stream. -/
structure HttpResponse where
  StatusCode : Int
  Body : Nat
deriving DecidableEq, Repr

/-- A `*http.Request` as far as this package touches it. `Header` is an
`http.Header`, a `map[string][]string`. -/
structure HttpRequest where
  Method : String
  URL : String
  Header : GoMap (List String)
  Body : Option Bytes
deriving Repr

/-- What `http.Client.Do` returns. When the error is nil the response is not
nil (the documented contract of `Do`); with an error a response may or may not
come along. -/
inductive DoResult where
  | ok (resp : HttpResponse)
  | fail (err : TransportError) (resp : Option HttpResponse)
deriving DecidableEq, Repr

/-- The `resp` component of the pair returned by `Do`. -/
def DoResult.resp : DoResult → Option HttpResponse
  | .ok r => some r
  | .fail _ r => r

/-- The `err` component of the pair returned by `Do`. -/
def DoResult.err : DoResult → Option TransportError
  | .ok _ => none
  | .fail e _ => some e

/-- The behaviour of the injected `*http.Client`: the result of its `i`-th
invocation (counted from 0) on a given request. -/
abbrev Transport := Nat → HttpRequest → DoResult

/-- The observable network state. -/
structure Net where
  /-- number of `client.Do` invocations so far -/
  calls : Nat
  /-- the requests handed to `client.Do`, oldest first -/
  sent : List HttpRequest
  /-- the body streams closed by `resp.Body.Close()`, oldest first -/
  closed : List Nat
  /-- the arguments of `time.Sleep`, oldest first -/
  slept : List Duration
  /-- number of `slog.Error` records written -/
  logged : Nat
  /-- the arguments of the pre-request callback invocations, oldest first -/
  hooked : List (HttpRequest × String)
deriving Repr

/-- The state before anything happened. -/
def Net.init : Net := ⟨0, [], [], [], 0, []⟩

/-- The call `client.Do(req)`. -/
def clientDo (client : Transport) (req : HttpRequest) (w : Net) : DoResult × Net :=
  (client w.calls req, { w with calls := w.calls + 1, sent := w.sent ++ [req] })

/-! ## retry.go -/

/-- The retry policy. -/
structure RetryConfig where
  MaxRetries : Int
  RetryInterval : Duration
  RetryStatusCodes : List Int
deriving DecidableEq, Repr

/-- The inner loop of `doRequestWithRetry`: `retry` becomes true at the first
code of the list equal to the status code. -/
def statusInRetryList (status : Int) : List Int → Bool
  | [] => false
  | code :: rest => if status == code then true else statusInRetryList status rest

/-- The statements after the `if err == nil` block of one iteration: close the
body of a non-nil response, then sleep. -/
def closeAndSleep (config : RetryConfig) (resp : Option HttpResponse) (w : Net) : Net :=
  let w1 := match resp with
    | some r => { w with closed := w.closed ++ [r.Body] }
    | none => w
  { w1 with slept := w1.slept ++ [config.RetryInterval] }

/-- The `for i := 0; i < config.MaxRetries; i++` loop of `doRequestWithRetry`
together with the final `return`. The first argument is the number of
iterations still to run, `MaxRetries - i`; `err` is the variable `err` of the
function, nil before the first iteration. -/
def retryLoop (client : Transport) (req : HttpRequest) (config : RetryConfig) :
    Nat → Option TransportError → Net → (Option HttpResponse × Option GoError) × Net
  | 0, err, w => ((none, some (GoError.retriesFailed config.MaxRetries err)), w)
  | n + 1, _, w =>
    match clientDo client req w with
    | (DoResult.ok resp, w1) =>
      if statusInRetryList resp.StatusCode config.RetryStatusCodes then
        retryLoop client req config n none
          (closeAndSleep config (some resp) { w1 with logged := w1.logged + 1 })
      else
        ((some resp, none), w1)
    | (DoResult.fail e resp, w1) =>
      retryLoop client req config n (some e)
        (closeAndSleep config resp { w1 with logged := w1.logged + 1 })

/-- The function `doRequestWithRetry`. -/
def doRequestWithRetry (client : Transport) (req : HttpRequest) (config : Option RetryConfig)
    (w : Net) : (Option HttpResponse × Option GoError) × Net :=
  match config with
  | none =>
    match clientDo client req w with
    | (r, w1) => ((r.resp, r.err.map GoError.transport), w1)
  | some cfg => retryLoop client req cfg cfg.MaxRetries.toNat none w

/-- A retryable attempt, in the words of the specification: the call returned
an error, or a response whose status code is in the retry set. -/
def DoResult.retryable (codes : List Int) : DoResult → Bool
  | .ok r => decide (r.StatusCode ∈ codes)
  | .fail _ _ => true

/-- The error variable after `n` retryable attempts that start at invocation
index `c`: the error of the last attempt, or the incoming value when `n = 0`. -/
def lastErr (client : Transport) (req : HttpRequest) (c : Nat) (err : Option TransportError) :
    Nat → Option TransportError
  | 0 => err
  | n + 1 => (client (c + n) req).err

/-! ## The parts of the Go libraries taken as given -/

/-- A dynamic Go value (`any`), as far as this package distinguishes them. -/
inductive GoAny where
  | str (s : String)
  | int (n : Int)
  | other (tag : Nat)
deriving DecidableEq, Repr

/-- Library behaviour the package relies on and does not define. -/
structure Stdlib where
  /-- the message of the error `http.NewRequest` returns for a method and a URL
  it rejects, `none` when it accepts them -/
  newRequestError : String → String → Option String
  /-- `sanitizeCookieName` of net/http -/
  sanitizeCookieName : String → String
  /-- `sanitizeCookieValue` of net/http -/
  sanitizeCookieValue : String → String
  /-- `sonic.Marshal`: the encoding, or the message of the error -/
  sonicMarshal : GoAny → Except String Bytes
  /-- `sonic.Unmarshal`: the decoded value, or the message of the error -/
  sonicUnmarshal : Bytes → Except String GoAny

/-! ## net/url: `Values`, `QueryEscape`, `Encode` -/

/-- The type `url.Values`, a `map[string][]string`. -/
abbrev Values := GoMap (List String)

/-- The method `Values.Add`: `v[key] = append(v[key], value)`. -/
def Values.Add (v : Values) (key value : String) : Values :=
  v.assign key ((v.lookup key).getD [] ++ [value])

/-- The function `shouldEscape` of net/url in the mode `encodeQueryComponent`:
only ASCII letters, digits and `-`, `_`, `.`, `~` stay as they are. -/
def shouldEscape (c : Char) : Bool :=
  !(c.isAlphanum || c == '-' || c == '_' || c == '.' || c == '~')

/-- One hexadecimal digit, from `"0123456789ABCDEF"`. -/
def upperhex (n : Nat) : Char :=
  "0123456789ABCDEF".toList.getD n '0'

/-- The escape `%XX` of one byte. -/
def escapeByte (b : Nat) : List Char :=
  ['%', upperhex (b / 16), upperhex (b % 16)]

/-- The escape of one character: a space becomes `+`, a character that
`shouldEscape` rejects becomes the `%XX` of each byte of its UTF-8 encoding. -/
def escapeChar (c : Char) : List Char :=
  if c == ' ' then ['+']
  else if shouldEscape c then
    ((String.utf8EncodeChar c).map UInt8.toNat).flatMap escapeByte
  else [c]

/-- The function `url.QueryEscape`. -/
def QueryEscape (s : String) : String :=
  String.mk (s.toList.flatMap escapeChar)

/-- Insertion of a key into a sorted list of keys. -/
def insertKey (k : String) : List String → List String
  | [] => [k]
  | x :: xs => if k < x then k :: x :: xs else x :: insertKey k xs

/-- The call `slices.Sort(keys)`. -/
def sortKeys (keys : List String) : List String :=
  keys.foldr insertKey []

/-- The pairs `key=value` that `Values.Encode` writes for one key. -/
def encodeKey (k : String) (vs : List String) : List String :=
  vs.map (fun v => QueryEscape k ++ "=" ++ QueryEscape v)

/-- The method `Values.Encode`: the keys sorted, every value of every key
written as `key=value`, both escaped, the pairs joined by `&`. -/
def Values.Encode (v : Values) : String :=
  "&".intercalate
    ((sortKeys (v.entries.map Prod.fst)).flatMap
      (fun k => encodeKey k ((v.lookup k).getD [])))

/-- The call `fmt.Sprintf("%v", v)` on a `[]string`: the elements separated by
a space, in square brackets. -/
def sprintfSlice (vs : List String) : String :=
  "[" ++ " ".intercalate vs ++ "]"

/-! ## request_data.go -/

/-- The implementations of the interface `RequestData`. -/
inductive RequestData where
  | JsonRequestData (data : GoAny)
  | QueryRequestData (data : Values)
  | RawRequestData (data : Bytes)
deriving Repr

/-- The constructor `NewRawData`. -/
def NewRawData (data : Bytes) : RequestData := RequestData.RawRequestData data

/-- The constructor `NewQueryData`. -/
def NewQueryData (data : Values) : RequestData := RequestData.QueryRequestData data

/-- The constructor `NewJsonData`. -/
def NewJsonData (data : GoAny) : RequestData := RequestData.JsonRequestData data

/-- The loop of `QueryRequestData.Marshal`:
`for k, v := range q.data { postData.Add(k, fmt.Sprintf("%v", v)) }`. -/
def queryPostData (data : Values) : Values :=
  data.entries.foldl (fun postData e => Values.Add postData e.1 (sprintfSlice e.2)) GoMap.empty

/-- The method `Marshal` of the three implementations: the bytes, or the
message of the error. -/
def RequestData.Marshal (lib : Stdlib) : RequestData → Except String Bytes
  | .JsonRequestData data =>
    match lib.sonicMarshal data with
    | .error err => .error err
    | .ok buf => .ok buf
  | .QueryRequestData data => .ok (Values.Encode (queryPostData data))
  | .RawRequestData data => .ok data

/-! ## request_param.go -/

/-- The implementations of the interface `RequestParam`. -/
inductive RequestParam where
  | UrlRequestParam (data : Values)
  | MapRequestParam (data : GoMap GoAny)
  | RawRequestParam (data : String)
deriving Repr

/-- The constructor `NewUrlRequestParam`. -/
def NewUrlRequestParam (data : Values) : RequestParam := RequestParam.UrlRequestParam data

/-- The constructor `NewMapParam`. -/
def NewMapParam (data : GoMap GoAny) : RequestParam := RequestParam.MapRequestParam data

/-- The constructor `NewRawParam`. -/
def NewRawParam (data : String) : RequestParam := RequestParam.RawRequestParam data

/-- The loop of `MapRequestParam.Marshal`: `d += k + "=" + v.(string) + "&"`.
The type assertion panics on a value that is not a string: `none`. -/
def mapParamLoop : List (String × GoAny) → String → Option String
  | [], d => some d
  | (k, GoAny.str v) :: rest, d => mapParamLoop rest (d ++ (k ++ "=" ++ v ++ "&"))
  | (_, _) :: _, _ => none

/-- The method `Marshal` of the three implementations; `none` is a panic. -/
def RequestParam.Marshal : RequestParam → Option String
  | .UrlRequestParam data => some (Values.Encode data)
  | .MapRequestParam data => mapParamLoop data.entries ""
  | .RawRequestParam data => some data

/-! ## http.go: the response wrapper -/

/-- The body stream of a response: how many times `io.ReadAll` ran on it and
what its `i`-th run (counted from 0) returns, the bytes or the message of the
read error. -/
structure BodyStream where
  reads : Nat
  script : Nat → Except String Bytes

/-- The call `io.ReadAll(resp.response.Body)`. -/
def BodyStream.ReadAll (b : BodyStream) : Except String Bytes × BodyStream :=
  (b.script b.reads, { b with reads := b.reads + 1 })

/-- The struct `Response`. -/
structure Response where
  response : HttpResponse
  rawdata : Bytes
  close : Bool
deriving DecidableEq, Repr

/-- The constructor `NewResponse`: nil for a nil response. -/
def NewResponse : Option HttpResponse → Option Response
  | none => none
  | some response => some { response := response, rawdata := "", close := false }

/-- The method `Response.Text`: the bytes returned, the response and the
stream afterwards. A failed read is logged and nil is returned. -/
def Response.Text (resp : Response) (b : BodyStream) : Bytes × Response × BodyStream :=
  if resp.close then
    (resp.rawdata, resp, b)
  else
    match b.ReadAll with
    | (.error _, b1) => ("", resp, b1)
    | (.ok body, b1) => (body, { resp with close := true, rawdata := body }, b1)

/-- The method `Response.Json`: the value decoded into `res` or the message of
the error returned, the response and the stream afterwards. -/
def Response.Json (lib : Stdlib) (resp : Response) (b : BodyStream) :
    Except String GoAny × Response × BodyStream :=
  if resp.close then
    (lib.sonicUnmarshal resp.rawdata, resp, b)
  else
    match b.ReadAll with
    | (.error err, b1) => (.error err, resp, b1)
    | (.ok body, b1) => (lib.sonicUnmarshal body, { resp with close := true, rawdata := body }, b1)

/-- The method `Response.Status`. -/
def Response.Status (resp : Response) : Int := resp.response.StatusCode

/-- One of the two reading methods. -/
inductive ReadCall where
  | text
  | json
deriving DecidableEq, Repr

/-- What a reading method hands back: the bytes of `Text`, or what `Json`
decoded or failed with. -/
inductive ReadOutput where
  | text (data : Bytes)
  | json (res : Except String GoAny)

/-- The body data a reading method hands back when the body bytes are `data`. -/
def ReadCall.outputOn (lib : Stdlib) : ReadCall → Bytes → ReadOutput
  | .text, data => .text data
  | .json, data => .json (lib.sonicUnmarshal data)

/-- What a reading method hands back when the read of the stream fails with
`err`: `Text` logs the error and returns nil, `Json` returns the error. -/
def ReadCall.outputOnError : ReadCall → String → ReadOutput
  | .text, _ => .text ""
  | .json, err => .json (.error err)

/-- Running one reading method. -/
def ReadCall.run (lib : Stdlib) : ReadCall → Response → BodyStream →
    ReadOutput × Response × BodyStream
  | .text, resp, b => match resp.Text b with
    | (data, resp1, b1) => (.text data, resp1, b1)
  | .json, resp, b => match resp.Json lib b with
    | (res, resp1, b1) => (.json res, resp1, b1)

/-! ## http.go: the client -/

/-- A `*http.Cookie`, the two fields `AddCookie` writes. -/
structure Cookie where
  Name : String
  Value : String
deriving DecidableEq, Repr

/-- The method `http.Header.Get` for a key in canonical form: the first value
of the key, the empty string when there is none. -/
def headerGet (h : GoMap (List String)) (key : String) : String :=
  match h.lookup key with
  | some (v :: _) => v
  | _ => ""

/-- The method `(*http.Request).AddCookie`: the cookie is written as
`name=value` into the header `Cookie`, after `"; "` when the header already
holds cookies. -/
def HttpRequest.AddCookie (lib : Stdlib) (req : HttpRequest) (c : Cookie) : HttpRequest :=
  let s := lib.sanitizeCookieName c.Name ++ "=" ++ lib.sanitizeCookieValue c.Value
  let cur := headerGet req.Header "Cookie"
  if cur != "" then
    { req with Header := req.Header.assign "Cookie" [cur ++ "; " ++ s] }
  else
    { req with Header := req.Header.assign "Cookie" [s] }

/-- The function `http.NewRequest`: a request with the method (`GET` for the
empty one), the URL, an empty header map and the body, or the message of the
error. -/
def httpNewRequest (lib : Stdlib) (method url : String) (body : Option Bytes) :
    Except String HttpRequest :=
  match lib.newRequestError method url with
  | some err => .error err
  | none => .ok { Method := if method == "" then "GET" else method,
                  URL := url, Header := GoMap.empty, Body := body }

/-- The type of the field `PreRequestCallback`: the callback changes the
request in place and returns an error or nil. -/
abbrev PreRequestCallback := HttpRequest → String → HttpRequest × Option String

/-- The struct `Client`. The field `client` is the behaviour of the
`*http.Client` it holds. -/
structure Client where
  client : Transport
  PreRequestCallback : Option PreRequestCallback
  Timeout : Duration
  Header : GoMap String
  cookies : List Cookie
  retryConfig : Option RetryConfig

/-- The struct `RequestOptions`. -/
structure RequestOptions where
  Header : GoMap String

/-- The type `RequestOption`, a function that changes the options in place. -/
abbrev RequestOption := RequestOptions → RequestOptions

/-- The option `RequestHeader`. -/
def RequestHeader (header : GoMap String) : RequestOption :=
  fun o => { o with Header := header }

/-- A `ClientOption` changes the client in place. -/
abbrev ClientOption := Client → Client

/-- The option `WithHeader`. -/
def WithHeader (header : GoMap String) : ClientOption :=
  fun o => { o with Header := header }

/-- The option `WithCookies`. -/
def WithCookies (cookies : List Cookie) : ClientOption :=
  fun o => { o with cookies := cookies }

/-- The option `WithRetryConfig`. -/
def WithRetryConfig (c : Option RetryConfig) : ClientOption :=
  fun o => { o with retryConfig := c }

/-- The option `PreRequestCallbackOption`. -/
def PreRequestCallbackOption (callback : Option PreRequestCallback) : ClientOption :=
  fun o => { o with PreRequestCallback := callback }

/-- The option `WithRequest`. -/
def WithRequest (client : Transport) : ClientOption :=
  fun o => { o with client := client }

/-- The constructor `NewClient` over the transport `dflt` of the
`http.Client` it creates when no option supplies one: the timeout starts at
ten seconds and the options run in order. -/
def NewClient (dflt : Transport) (opts : List ClientOption) : Client :=
  opts.foldl (fun c o => o c)
    { client := dflt, PreRequestCallback := none, Timeout := 10 * 1000000000,
      Header := GoMap.empty, cookies := [], retryConfig := none }

/-- A loop `for k, v := range m { header[k] = []string{v} }`. -/
def copyHeader (m : GoMap String) (header : GoMap (List String)) : GoMap (List String) :=
  m.entries.foldl (fun h e => h.assign e.1 [e.2]) header

/-- The options of one call: `opt := &RequestOptions{}` and then
`for _, o := range opts { o(opt) }`. -/
def applyOptions (opts : List RequestOption) : RequestOptions :=
  opts.foldl (fun o f => f o) { Header := GoMap.empty }

/-- The header map `DoRequest` builds: the loop over `opt.Header`, then the
loop over `client.Header`. -/
def buildHeader (client : Client) (opts : List RequestOption) : GoMap (List String) :=
  copyHeader client.Header (copyHeader (applyOptions opts).Header GoMap.empty)

/-- The request `DoRequest` hands to `doRequestWithRetry`, built from the
request that `http.NewRequest` returned: the cookies are added, the callback
runs, then `req.Header = header`. -/
def prepareRequest (lib : Stdlib) (client : Client) (opts : List RequestOption)
    (req : HttpRequest) (bodyStr : String) (w : Net) : HttpRequest × Net :=
  let req1 := client.cookies.foldl (HttpRequest.AddCookie lib) req
  let (req2, w1) := match client.PreRequestCallback with
    | some callback =>
      ((callback req1 bodyStr).1, { w with hooked := w.hooked ++ [(req1, bodyStr)] })
    | none => (req1, w)
  ({ req2 with Header := buildHeader client opts }, w1)

/-- The method `Client.DoRequest`. -/
def Client.DoRequest (lib : Stdlib) (client : Client) (url : String)
    (data : Option RequestData) (method : String) (opts : List RequestOption) (w : Net) :
    (Option Response × Option GoError) × Net :=
  let marshalled : Except String (Option Bytes × String) :=
    match data with
    | none => .ok (none, "")
    | some d =>
      match d.Marshal lib with
      | .error err => .error err
      | .ok buf => .ok (some buf, buf)
  match marshalled with
  | .error err => ((none, some (GoError.marshalFailed err)), w)
  | .ok (body, bodyStr) =>
    match httpNewRequest lib method url body with
    | .error err => ((none, some (GoError.newRequest err)), w)
    | .ok req0 =>
      match prepareRequest lib client opts req0 bodyStr w with
      | (req, w1) =>
        match doRequestWithRetry client.client req client.retryConfig w1 with
        | ((_, some err), w2) => ((none, some err), w2)
        | ((resp, none), w2) => ((NewResponse resp, none), w2)

/-- The method `Client.Get`; `none` is the panic of `query.Marshal()`. -/
def Client.Get (lib : Stdlib) (c : Client) (url : String) (query : Option RequestParam)
    (opts : List RequestOption) (w : Net) : Option ((Option Response × Option GoError) × Net) :=
  match query with
  | some q =>
    match q.Marshal with
    | some qs => some (c.DoRequest lib (url ++ "?" ++ qs) none "GET" opts w)
    | none => none
  | none => some (c.DoRequest lib url none "GET" opts w)

/-- The method `Client.Post`. -/
def Client.Post (lib : Stdlib) (c : Client) (url : String) (data : Option RequestData)
    (opts : List RequestOption) (w : Net) : (Option Response × Option GoError) × Net :=
  c.DoRequest lib url data "POST" opts w

/-- The method `Client.Put`. -/
def Client.Put (lib : Stdlib) (c : Client) (url : String) (data : Option RequestData)
    (opts : List RequestOption) (w : Net) : (Option Response × Option GoError) × Net :=
  c.DoRequest lib url data "PUT" opts w

/-- The method `Client.Patch`. -/
def Client.Patch (lib : Stdlib) (c : Client) (url : String) (data : Option RequestData)
    (opts : List RequestOption) (w : Net) : (Option Response × Option GoError) × Net :=
  c.DoRequest lib url data "PATCH" opts w

/-- The method `Client.Delete`. -/
def Client.Delete (lib : Stdlib) (c : Client) (url : String) (data : Option RequestData)
    (opts : List RequestOption) (w : Net) : (Option Response × Option GoError) × Net :=
  c.DoRequest lib url data "DELETE" opts w

/-- The method `Client.Head`. -/
def Client.Head (lib : Stdlib) (c : Client) (url : String)
    (opts : List RequestOption) (w : Net) : (Option Response × Option GoError) × Net :=
  c.DoRequest lib url none "HEAD" opts w

/-- Two reading calls in a row on one response: both outputs, then the
response and the stream at the end. -/
def readTwice (lib : Stdlib) (c1 c2 : ReadCall) (resp : Response) (b : BodyStream) :
    ReadOutput × ReadOutput × Response × BodyStream :=
  match c1.run lib resp b with
  | (out1, resp1, b1) =>
    match c2.run lib resp1 b1 with
    | (out2, resp2, b2) => (out1, out2, resp2, b2)

/-- The property of two reading calls in a row: both hand back the same body
data and the stream was read at most once. -/
def SameDataReadOnce (lib : Stdlib) (c1 c2 : ReadCall) (resp : Response) (b : BodyStream) :
    Prop :=
  (∃ data, (readTwice lib c1 c2 resp b).1 = c1.outputOn lib data ∧
      (readTwice lib c1 c2 resp b).2.1 = c2.outputOn lib data) ∧
    (readTwice lib c1 c2 resp b).2.2.2.reads ≤ b.reads + 1

/-! ## Concrete inputs -/

/-- The double quote. -/
def quoteChar : Char := Char.ofNat 34

/-- A character a JSON string literal holds as it is, in every encoder: a
printable ASCII character other than the double quote and the backslash. -/
def plainChar (c : Char) : Bool :=
  decide (32 ≤ c.toNat) && decide (c.toNat ≤ 126) && !(c == quoteChar) && !(c == Char.ofNat 92)

/-- A stand-in for `sonic.Marshal` on the concrete inputs. It rejects
`GoAny.other` (as the encoder rejects a channel), writes an integer in decimal
and a text of plain characters between double quotes; a text with a character
that JSON escapes is outside the stand-in and reported as such. -/
def exampleMarshal : GoAny → Except String Bytes
  | GoAny.other _ => .error "unsupported type"
  | GoAny.int n => .ok (toString n)
  | GoAny.str s =>
    if s.toList.all plainChar then .ok (String.mk (quoteChar :: s.toList ++ [quoteChar]))
    else .error "text outside the stand-in encoder"

/-- A stand-in for `sonic.Unmarshal` on the concrete inputs. It decodes a JSON
string literal of plain characters and rejects every other text, which is what
the decoder does with a text that is no JSON document, such as `hello`. -/
def exampleUnmarshal (data : Bytes) : Except String GoAny :=
  match data.toList with
  | [] => .error "syntax error"
  | c :: rest =>
    if c == quoteChar && rest.getLast? == some quoteChar && rest.dropLast.all plainChar then
      .ok (GoAny.str (String.mk rest.dropLast))
    else .error "syntax error"

/-- Library behaviour for the concrete inputs: `http.NewRequest` accepts the
method and the URL, the cookie names and values need no sanitising, the JSON
encoder and decoder are the stand-ins above. -/
def exampleLib : Stdlib where
  newRequestError := fun _ _ => none
  sanitizeCookieName := fun s => s
  sanitizeCookieValue := fun s => s
  sonicMarshal := exampleMarshal
  sonicUnmarshal := exampleUnmarshal

/-- A request. -/
def exampleRequest : HttpRequest :=
  { Method := "GET", URL := "http://example.test/", Header := GoMap.empty, Body := none }

/-- A transport that answers 200 to every call. -/
def transportOk : Transport := fun i _ => DoResult.ok { StatusCode := 200, Body := i }

/-- A transport that answers 503 to its first two calls and 200 afterwards. -/
def transport503Twice : Transport := fun i _ =>
  if i < 2 then DoResult.ok { StatusCode := 503, Body := i }
  else DoResult.ok { StatusCode := 200, Body := i }

/-- A transport that answers 503 to every call. -/
def transportBusy : Transport := fun i _ => DoResult.ok { StatusCode := 503, Body := i }

/-- A transport whose calls fail and hand back a response all the same, as
`Do` does when a redirect is refused. -/
def transportRefusedRedirect : Transport := fun i _ =>
  DoResult.fail { msg := "redirect refused" } (some { StatusCode := 302, Body := i })

/-- A transport that fails every call. -/
def transportDown : Transport := fun _ _ => DoResult.fail { msg := "connection refused" } none

/-- The policy `MaxRetries = 3`, `RetryInterval = 0`, `RetryStatusCodes = {503}`. -/
def policy503 : RetryConfig := { MaxRetries := 3, RetryInterval := 0, RetryStatusCodes := [503] }

/-- The policy `MaxRetries = 2`, `RetryInterval = 0`, no status codes. -/
def policyTwo : RetryConfig := { MaxRetries := 2, RetryInterval := 0, RetryStatusCodes := [] }

/-- A body stream whose first read fails and whose later reads succeed. -/
def streamFailsFirst : BodyStream :=
  { reads := 0, script := fun i => if i = 0 then .error "timeout" else .ok "late" }

/-- A body stream that holds the JSON document `"hello"`, quotes included:
the first read returns it, a later read finds the stream at its end. -/
def streamHello : BodyStream :=
  { reads := 0, script := fun i => if i = 0 then .ok "\"hello\"" else .ok "" }

/-- A fresh response wrapper, as `NewResponse` builds it. -/
def freshResponse : Response :=
  { response := { StatusCode := 200, Body := 0 }, rawdata := "", close := false }

/-- A callback that signs the request: it sets the header `X-Signature` to the
body it is given. -/
def signingCallback : PreRequestCallback := fun req bodyStr =>
  ({ req with Header := req.Header.assign "X-Signature" [bodyStr] }, none)

/-! ## Lemmas on the retry loop -/

theorem statusInRetryList_iff (status : Int) (codes : List Int) :
    statusInRetryList status codes = true ↔ status ∈ codes := by
  induction codes with
  | nil => simp [statusInRetryList]
  | cons c rest ih =>
    by_cases h : status = c
    · simp [statusInRetryList, h]
    · simp [statusInRetryList, h, ih]

theorem retryable_ok (codes : List Int) (r : HttpResponse) :
    (DoResult.ok r).retryable codes = statusInRetryList r.StatusCode codes := by
  cases h : statusInRetryList r.StatusCode codes with
  | true => simpa [DoResult.retryable] using (statusInRetryList_iff _ _).1 h
  | false =>
    have : r.StatusCode ∉ codes := fun hm => by
      rw [(statusInRetryList_iff _ _).2 hm] at h; exact Bool.noConfusion h
    simpa [DoResult.retryable] using this

theorem closeAndSleep_calls (config : RetryConfig) (resp : Option HttpResponse) (w : Net) :
    (closeAndSleep config resp w).calls = w.calls := by
  cases resp <;> rfl

theorem closeAndSleep_sent (config : RetryConfig) (resp : Option HttpResponse) (w : Net) :
    (closeAndSleep config resp w).sent = w.sent := by
  cases resp <;> rfl

/-- When every remaining attempt is retryable the loop runs all of them and
ends in the final `return nil, fmt.Errorf(...)`. -/
theorem retryLoop_exhaust (client : Transport) (req : HttpRequest) (config : RetryConfig) :
    ∀ (n : Nat) (err : Option TransportError) (w : Net),
      (∀ j, j < n → (client (w.calls + j) req).retryable config.RetryStatusCodes = true) →
      (retryLoop client req config n err w).1
          = (none, some (GoError.retriesFailed config.MaxRetries
              (lastErr client req w.calls err n))) ∧
        (retryLoop client req config n err w).2.calls = w.calls + n ∧
        (retryLoop client req config n err w).2.sent = w.sent ++ List.replicate n req := by
  intro n
  induction n with
  | zero => intro err w _; simp [retryLoop, lastErr]
  | succ n ih =>
    intro err w h
    have h0 := h 0 (Nat.succ_pos n)
    have hrest : ∀ (w1 : Net), w1.calls = w.calls + 1 → ∀ j, j < n →
        (client (w1.calls + j) req).retryable config.RetryStatusCodes = true := by
      intro w1 hw1 j hj
      have := h (j + 1) (Nat.succ_lt_succ hj)
      rw [hw1]
      rwa [show w.calls + 1 + j = w.calls + (j + 1) by omega]
    simp only [Nat.add_zero] at h0
    cases hc : client w.calls req with
    | ok resp =>
      rw [hc] at h0
      rw [retryable_ok] at h0
      simp only [retryLoop, clientDo, hc, h0, if_true]
      obtain ⟨e1, e2, e3⟩ := ih none
        (closeAndSleep config (some resp)
          { calls := w.calls + 1, sent := w.sent ++ [req], closed := w.closed,
            slept := w.slept, logged := w.logged + 1, hooked := w.hooked })
        (hrest _ (by rw [closeAndSleep_calls]))
      rw [closeAndSleep_calls] at e1 e2
      rw [closeAndSleep_sent] at e3
      refine ⟨?_, ?_, ?_⟩
      · rw [e1]; cases n <;> simp [lastErr, hc, DoResult.err, Nat.add_assoc, Nat.add_comm 1]
      · rw [e2]; simp only []; omega
      · rw [e3]; simp [List.replicate_succ]
    | fail e resp =>
      simp only [retryLoop, clientDo, hc]
      obtain ⟨e1, e2, e3⟩ := ih (some e)
        (closeAndSleep config resp
          { calls := w.calls + 1, sent := w.sent ++ [req], closed := w.closed,
            slept := w.slept, logged := w.logged + 1, hooked := w.hooked })
        (hrest _ (by rw [closeAndSleep_calls]))
      rw [closeAndSleep_calls] at e1 e2
      rw [closeAndSleep_sent] at e3
      refine ⟨?_, ?_, ?_⟩
      · rw [e1]; cases n <;> simp [lastErr, hc, DoResult.err, Nat.add_assoc, Nat.add_comm 1]
      · rw [e2]; simp only []; omega
      · rw [e3]; simp [List.replicate_succ]

/-- When the first `k` remaining attempts are retryable and the next one
answers with a status code outside the list, the loop returns that response. -/
theorem retryLoop_success (client : Transport) (req : HttpRequest) (config : RetryConfig) :
    ∀ (k n : Nat) (err : Option TransportError) (w : Net) (r : HttpResponse),
      k < n →
      (∀ j, j < k → (client (w.calls + j) req).retryable config.RetryStatusCodes = true) →
      client (w.calls + k) req = DoResult.ok r →
      statusInRetryList r.StatusCode config.RetryStatusCodes = false →
      (retryLoop client req config n err w).1 = (some r, none) ∧
        (retryLoop client req config n err w).2.calls = w.calls + (k + 1) ∧
        (retryLoop client req config n err w).2.sent = w.sent ++ List.replicate (k + 1) req := by
  intro k
  induction k with
  | zero =>
    intro n err w r hn _ hk hr
    obtain ⟨m, rfl⟩ : ∃ m, n = m + 1 := ⟨n - 1, by omega⟩
    simp only [Nat.add_zero] at hk
    simp [retryLoop, clientDo, hk, hr]
  | succ k ih =>
    intro n err w r hn h hk hr
    obtain ⟨m, rfl⟩ : ∃ m, n = m + 1 := ⟨n - 1, by omega⟩
    have hm : k < m := by omega
    have h0 := h 0 (Nat.succ_pos k)
    simp only [Nat.add_zero] at h0
    have hrest : ∀ (w1 : Net), w1.calls = w.calls + 1 →
        (∀ j, j < k → (client (w1.calls + j) req).retryable config.RetryStatusCodes = true) ∧
        client (w1.calls + k) req = DoResult.ok r := by
      intro w1 hw1
      rw [hw1]
      refine ⟨?_, ?_⟩
      · intro j hj
        have := h (j + 1) (Nat.succ_lt_succ hj)
        rwa [show w.calls + 1 + j = w.calls + (j + 1) by omega]
      · rwa [show w.calls + 1 + k = w.calls + (k + 1) by omega]
    cases hc : client w.calls req with
    | ok resp =>
      rw [hc] at h0
      rw [retryable_ok] at h0
      simp only [retryLoop, clientDo, hc, h0, if_true]
      obtain ⟨ha, hb⟩ := hrest
        (closeAndSleep config (some resp)
          { calls := w.calls + 1, sent := w.sent ++ [req], closed := w.closed,
            slept := w.slept, logged := w.logged + 1, hooked := w.hooked })
        (by rw [closeAndSleep_calls])
      obtain ⟨e1, e2, e3⟩ := ih m none _ r hm ha hb hr
      rw [closeAndSleep_calls] at e2
      rw [closeAndSleep_sent] at e3
      refine ⟨e1, ?_, ?_⟩
      · rw [e2]; simp only []; omega
      · rw [e3]; simp [List.replicate_succ]
    | fail e resp =>
      simp only [retryLoop, clientDo, hc]
      obtain ⟨ha, hb⟩ := hrest
        (closeAndSleep config resp
          { calls := w.calls + 1, sent := w.sent ++ [req], closed := w.closed,
            slept := w.slept, logged := w.logged + 1, hooked := w.hooked })
        (by rw [closeAndSleep_calls])
      obtain ⟨e1, e2, e3⟩ := ih m (some e) _ r hm ha hb hr
      rw [closeAndSleep_calls] at e2
      rw [closeAndSleep_sent] at e3
      refine ⟨e1, ?_, ?_⟩
      · rw [e2]; simp only []; omega
      · rw [e3]; simp [List.replicate_succ]

/-! ## Lemmas on the header map, the requests sent and the encoders -/

/-- Removing the entries of a key leaves the other keys as they are. -/
theorem lookup_filter_ne {β : Type} (k k1 : String) (hne : k1 ≠ k) (l : List (String × β)) :
    List.lookup k1 (l.filter (fun e => !(e.1 == k))) = List.lookup k1 l := by
  induction l with
  | nil => rfl
  | cons e rest ih =>
    obtain ⟨a, b⟩ := e
    by_cases ha : a = k
    · subst ha
      have h1 : (k1 == a) = false := by simpa using hne
      simp [List.filter, List.lookup, h1, ih]
    · have h2 : (a == k) = false := by simpa using ha
      simp only [List.filter, h2, Bool.not_false, List.lookup]
      rw [ih]

/-- Reading after the assignment `m[k] = v`. -/
theorem GoMap.lookup_assign {β : Type} (m : GoMap β) (k k1 : String) (v : β) :
    (m.assign k v).lookup k1 = if k1 = k then some v else m.lookup k1 := by
  by_cases h : k1 = k
  · subst h
    simp [GoMap.assign, GoMap.lookup, List.lookup]
  · have h1 : (k1 == k) = false := by simpa using h
    simp only [GoMap.assign, GoMap.lookup, List.lookup, h1, h, if_false]
    exact lookup_filter_ne k k1 h m.entries

/-- The copy loop leaves a key it does not visit as it is. -/
theorem copyHeader_lookup_of_not_mem (k : String) :
    ∀ (l : List (String × String)) (h : GoMap (List String)),
      k ∉ l.map Prod.fst → (copyHeader ⟨l⟩ h).lookup k = h.lookup k := by
  intro l
  induction l with
  | nil => intro h _; rfl
  | cons e rest ih =>
    intro h hk
    simp only [List.map_cons, List.mem_cons, not_or] at hk
    have := ih (h.assign e.1 [e.2]) hk.2
    simp only [copyHeader, List.foldl_cons] at this ⊢
    rw [this, GoMap.lookup_assign, if_neg hk.1]

/-- The copy loop writes `[v]` at every key `k` with value `v` of the map it ranges over. -/
theorem copyHeader_lookup_of_mem (k v : String) :
    ∀ (l : List (String × String)) (h : GoMap (List String)),
      (l.map Prod.fst).Nodup → (k, v) ∈ l → (copyHeader ⟨l⟩ h).lookup k = some [v] := by
  intro l
  induction l with
  | nil => intro h _ hm; simp at hm
  | cons e rest ih =>
    intro h hnd hm
    simp only [List.map_cons, List.nodup_cons] at hnd
    rcases List.mem_cons.1 hm with he | hr
    · subst he
      have := copyHeader_lookup_of_not_mem k rest (h.assign k [v]) hnd.1
      simp only [copyHeader, List.foldl_cons] at this ⊢
      rw [this, GoMap.lookup_assign, if_pos rfl]
    · have := ih (h.assign e.1 [e.2]) hnd.2 hr
      simpa only [copyHeader, List.foldl_cons] using this

/-- A key of the client header map has the client value in the header map `DoRequest` builds,
whatever the per-call options hold. -/
theorem buildHeader_client_value (client : Client) (opts : List RequestOption) (k v : String)
    (hnd : (client.Header.entries.map Prod.fst).Nodup) (hm : (k, v) ∈ client.Header.entries) :
    (buildHeader client opts).lookup k = some [v] := by
  unfold buildHeader
  exact copyHeader_lookup_of_mem k v client.Header.entries _ hnd hm

/-- A key of the per-call header map has the per-call value when the client header map does
not hold the key. -/
theorem buildHeader_option_value (client : Client) (opts : List RequestOption) (k v : String)
    (hk : k ∉ client.Header.entries.map Prod.fst)
    (hnd : ((applyOptions opts).Header.entries.map
      Prod.fst).Nodup)
    (hm : (k, v) ∈ (applyOptions opts).Header.entries) :
    (buildHeader client opts).lookup k = some [v] := by
  unfold buildHeader
  rw [copyHeader_lookup_of_not_mem k client.Header.entries _ hk]
  exact copyHeader_lookup_of_mem k v _ _ hnd hm

/-- A key of neither header map is absent from the header map `DoRequest` builds. -/
theorem buildHeader_absent (client : Client) (opts : List RequestOption) (k : String)
    (hk : k ∉ client.Header.entries.map Prod.fst)
    (hk2 : k ∉ (applyOptions opts).Header.entries.map
      Prod.fst) :
    (buildHeader client opts).lookup k = none := by
  unfold buildHeader
  rw [copyHeader_lookup_of_not_mem k client.Header.entries _ hk,
    copyHeader_lookup_of_not_mem k _ _ hk2]
  rfl

/-- Whatever the transport does, the loop hands it the same request at most `n` times. -/
theorem retryLoop_sent (client : Transport) (req : HttpRequest) (config : RetryConfig) :
    ∀ (n : Nat) (err : Option TransportError) (w : Net),
      ∃ m, m ≤ n ∧ (retryLoop client req config n err w).2.sent = w.sent ++ List.replicate m req ∧
        (retryLoop client req config n err w).2.calls = w.calls + m := by
  intro n
  induction n with
  | zero => intro err w; exact ⟨0, le_refl 0, by simp [retryLoop], by simp [retryLoop]⟩
  | succ n ih =>
    intro err w
    cases hc : client w.calls req with
    | ok resp =>
      by_cases hs : statusInRetryList resp.StatusCode config.RetryStatusCodes = true
      · obtain ⟨m, hm, e1, e2⟩ := ih none
          (closeAndSleep config (some resp)
            { calls := w.calls + 1, sent := w.sent ++ [req], closed := w.closed,
              slept := w.slept, logged := w.logged + 1, hooked := w.hooked })
        rw [closeAndSleep_sent] at e1
        rw [closeAndSleep_calls] at e2
        refine ⟨m + 1, by omega, ?_, ?_⟩
        · simp only [retryLoop, clientDo, hc, hs, if_true]
          rw [e1]; simp [List.replicate_succ]
        · simp only [retryLoop, clientDo, hc, hs, if_true]
          rw [e2]; simp only []; omega
      · refine ⟨1, by omega, ?_, ?_⟩ <;> simp [retryLoop, clientDo, hc, hs]
    | fail e resp =>
      obtain ⟨m, hm, e1, e2⟩ := ih (some e)
        (closeAndSleep config resp
          { calls := w.calls + 1, sent := w.sent ++ [req], closed := w.closed,
            slept := w.slept, logged := w.logged + 1, hooked := w.hooked })
      rw [closeAndSleep_sent] at e1
      rw [closeAndSleep_calls] at e2
      refine ⟨m + 1, by omega, ?_, ?_⟩
      · simp only [retryLoop, clientDo, hc]
        rw [e1]; simp [List.replicate_succ]
      · simp only [retryLoop, clientDo, hc]
        rw [e2]; simp only []; omega

/-- Whatever the transport does, `doRequestWithRetry` hands it the request it was given, some
number of times. -/
theorem doRequestWithRetry_sent (client : Transport) (req : HttpRequest)
    (config : Option RetryConfig) (w : Net) :
    ∃ m, (doRequestWithRetry client req config w).2.sent = w.sent ++ List.replicate m req ∧
      (doRequestWithRetry client req config w).2.calls = w.calls + m := by
  cases config with
  | none => exact ⟨1, by simp [doRequestWithRetry, clientDo], by simp [doRequestWithRetry, clientDo]⟩
  | some cfg =>
    obtain ⟨m, _, e1, e2⟩ := retryLoop_sent client req cfg cfg.MaxRetries.toNat none w
    exact ⟨m, e1, e2⟩

/-- Building the request invokes no transport call. -/
theorem prepareRequest_sent (lib : Stdlib) (client : Client) (opts : List RequestOption)
    (req : HttpRequest) (bodyStr : String) (w : Net) :
    (prepareRequest lib client opts req bodyStr w).2.sent = w.sent ∧
      (prepareRequest lib client opts req bodyStr w).2.calls = w.calls := by
  unfold prepareRequest
  cases client.PreRequestCallback <;> exact ⟨rfl, rfl⟩

/-- The header map of the request that `DoRequest` hands on is the map built from the two
header maps alone: the cookies added to the request and the changes of the callback to its
header do not reach it. -/
theorem prepareRequest_header (lib : Stdlib) (client : Client) (opts : List RequestOption)
    (req : HttpRequest) (bodyStr : String) (w : Net) :
    (prepareRequest lib client opts req bodyStr w).1.Header = buildHeader client opts := by
  unfold prepareRequest
  cases client.PreRequestCallback <;> rfl

/-- Every request `DoRequest` hands to the transport carries exactly the header map built
from the two header maps. -/
theorem DoRequest_sent_header (lib : Stdlib) (client : Client) (url : String)
    (data : Option RequestData) (method : String) (opts : List RequestOption) (w : Net) :
    ∃ (m : Nat) (req : HttpRequest), req.Header = buildHeader client opts ∧
      (client.DoRequest lib url data method opts w).2.sent = w.sent ++ List.replicate m req ∧
      (client.DoRequest lib url data method opts w).2.calls = w.calls + m := by
  have hnone : ∃ (m : Nat) (req : HttpRequest), req.Header = buildHeader client opts ∧
      w.sent = w.sent ++ List.replicate m req ∧ w.calls = w.calls + m :=
    ⟨0, { Method := method, URL := url, Header := buildHeader client opts, Body := none },
      rfl, by simp, rfl⟩
  have hsome : ∀ (body : Option Bytes) (bodyStr : String),
      ∃ (m : Nat) (req : HttpRequest), req.Header = buildHeader client opts ∧
        (match httpNewRequest lib method url body with
          | .error err => ((none, some (GoError.newRequest err)), w)
          | .ok req0 =>
            match prepareRequest lib client opts req0 bodyStr w with
            | (req, w1) =>
              match doRequestWithRetry client.client req client.retryConfig w1 with
              | ((_, some err), w2) => (((none : Option Response), some err), w2)
              | ((resp, none), w2) => ((NewResponse resp, none), w2)).2.sent
          = w.sent ++ List.replicate m req ∧
        (match httpNewRequest lib method url body with
          | .error err => ((none, some (GoError.newRequest err)), w)
          | .ok req0 =>
            match prepareRequest lib client opts req0 bodyStr w with
            | (req, w1) =>
              match doRequestWithRetry client.client req client.retryConfig w1 with
              | ((_, some err), w2) => (((none : Option Response), some err), w2)
              | ((resp, none), w2) => ((NewResponse resp, none), w2)).2.calls
          = w.calls + m := by
    intro body bodyStr
    cases hreq : httpNewRequest lib method url body with
    | error err => exact hnone
    | ok req0 =>
      obtain ⟨hs, hcalls⟩ := prepareRequest_sent lib client opts req0 bodyStr w
      have hh := prepareRequest_header lib client opts req0 bodyStr w
      obtain ⟨m, e1, e2⟩ := doRequestWithRetry_sent client.client
        (prepareRequest lib client opts req0 bodyStr w).1 client.retryConfig
        (prepareRequest lib client opts req0 bodyStr w).2
      refine ⟨m, (prepareRequest lib client opts req0 bodyStr w).1, hh, ?_, ?_⟩
      · simp only []
        rw [← hs, ← e1]
        rcases hd : doRequestWithRetry client.client
          (prepareRequest lib client opts req0 bodyStr w).1 client.retryConfig
          (prepareRequest lib client opts req0 bodyStr w).2 with ⟨⟨resp, _ | err⟩, w2⟩ <;> rfl
      · simp only []
        rw [← hcalls, ← e2]
        rcases hd : doRequestWithRetry client.client
          (prepareRequest lib client opts req0 bodyStr w).1 client.retryConfig
          (prepareRequest lib client opts req0 bodyStr w).2 with ⟨⟨resp, _ | err⟩, w2⟩ <;> rfl
  unfold Client.DoRequest
  cases data with
  | none => exact hsome none ""
  | some d =>
    cases hm : d.Marshal lib with
    | error err => simpa [hm] using hnone
    | ok buf => simpa [hm] using hsome (some buf) buf

/-- When neither header map holds the key `Cookie`, no request `DoRequest` hands to the
transport has a `Cookie` header, whatever cookies the client was given. -/
theorem DoRequest_sent_without_cookie_header (lib : Stdlib) (client : Client) (url : String)
    (data : Option RequestData) (method : String) (opts : List RequestOption) (w : Net)
    (hc : "Cookie" ∉ client.Header.entries.map Prod.fst)
    (ho : "Cookie" ∉ (applyOptions opts).Header.entries.map Prod.fst) :
    ∃ (m : Nat) (req : HttpRequest), req.Header.lookup "Cookie" = none ∧
      (client.DoRequest lib url data method opts w).2.sent = w.sent ++ List.replicate m req := by
  obtain ⟨m, req, hh, hs, _⟩ := DoRequest_sent_header lib client url data method opts w
  exact ⟨m, req, by rw [hh]; exact buildHeader_absent client opts "Cookie" hc ho, hs⟩

/-- The method `QueryRequestData.Marshal` on a map with one key writes one pair, whose value
is the escaped `[v1 ... vn]`. -/
theorem QueryRequestData_Marshal_single_key (lib : Stdlib) (k : String) (vs : List String) :
    (NewQueryData ⟨[(k, vs)]⟩).Marshal lib
      = .ok (QueryEscape k ++ "=" ++ QueryEscape (sprintfSlice vs)) := by
  simp [NewQueryData, RequestData.Marshal, queryPostData, Values.Add, GoMap.assign,
    GoMap.lookup, GoMap.empty, Values.Encode, sortKeys, insertKey, encodeKey, List.lookup,
    String.intercalate, String.intercalate.go]

/-- The loop of `MapRequestParam.Marshal` on string values does not panic and appends every
`k=v&` unescaped. -/
theorem mapParamLoop_strings :
    ∀ (l : List (String × String)) (d : String),
      mapParamLoop (l.map (fun e => (e.1, GoAny.str e.2))) d
        = some (l.foldl (fun d e => d ++ (e.1 ++ "=" ++ e.2 ++ "&")) d) := by
  intro l
  induction l with
  | nil => intro d; rfl
  | cons e rest ih => intro d; simp [mapParamLoop, ih]

/-- The method `MapRequestParam.Marshal` on a map with one string value writes `k=v&`, unescaped. -/
theorem MapRequestParam_Marshal_single_key (k v : String) :
    (NewMapParam ⟨[(k, GoAny.str v)]⟩).Marshal = some (k ++ "=" ++ v ++ "&") := by
  simp [NewMapParam, RequestParam.Marshal, mapParamLoop]

/-! ## retry.go: the claims -/

/-- C1: with a retry policy of `MaxRetries = N` and `0 ≤ k < N` (so `N ≥ 1`), when the first
`k` transport calls are retryable (an error, or a status code in the retry
list) and call `k + 1` answers with a status code outside the list,
`doRequestWithRetry` returns exactly that response with a nil error and the
transport has been invoked exactly `k + 1` times, each time with the request. -/
theorem doRequestWithRetry_returns_first_final_response
    (client : Transport) (req : HttpRequest) (cfg : RetryConfig) (N k : Nat)
    (r : HttpResponse) (w : Net)
    (hN : cfg.MaxRetries = (N : Int)) (hk : k < N)
    (hfirst : ∀ j, j < k →
      (client (w.calls + j) req).retryable cfg.RetryStatusCodes = true)
    (hcall : client (w.calls + k) req = DoResult.ok r)
    (hstatus : r.StatusCode ∉ cfg.RetryStatusCodes) :
    (doRequestWithRetry client req (some cfg) w).1 = (some r, none) ∧
      (doRequestWithRetry client req (some cfg) w).2.calls = w.calls + (k + 1) ∧
      (doRequestWithRetry client req (some cfg) w).2.sent
        = w.sent ++ List.replicate (k + 1) req := by
  have hs : statusInRetryList r.StatusCode cfg.RetryStatusCodes = false := by
    cases h : statusInRetryList r.StatusCode cfg.RetryStatusCodes with
    | false => rfl
    | true => exact absurd ((statusInRetryList_iff _ _).1 h) hstatus
  have hn : k < cfg.MaxRetries.toNat := by rw [hN]; simpa using hk
  simpa [doRequestWithRetry] using
    retryLoop_success client req cfg k cfg.MaxRetries.toNat none w r hn hfirst hcall hs

/-- C1, on the input of the specification: `MaxRetries = 3`, retry list `{503}`,
a transport answering 503, 503, 200 gives status 200 after exactly 3 calls. -/
theorem doRequestWithRetry_returns_first_final_response_witness :
    (doRequestWithRetry transport503Twice exampleRequest (some policy503) Net.init).1
        = (some { StatusCode := 200, Body := 2 }, none) ∧
      (doRequestWithRetry transport503Twice exampleRequest (some policy503) Net.init).2.calls
        = 3 ∧
      (doRequestWithRetry transport503Twice exampleRequest (some policy503) Net.init).2.sent
        = [exampleRequest, exampleRequest, exampleRequest] :=
  doRequestWithRetry_returns_first_final_response transport503Twice exampleRequest policy503
    3 2 { StatusCode := 200, Body := 2 } Net.init rfl (by decide)
    (by decide) rfl (by decide)

/-- C2: with a retry policy of `MaxRetries = N ≥ 0`, when every attempt is
retryable the transport is invoked exactly `N` times and `doRequestWithRetry`
returns a nil response and a non-nil error, the one that wraps the error of the
last attempt (nil when that attempt was a status-code retry or `N = 0`). -/
theorem doRequestWithRetry_exhausted
    (client : Transport) (req : HttpRequest) (cfg : RetryConfig) (N : Nat) (w : Net)
    (hN : cfg.MaxRetries = (N : Int))
    (hall : ∀ j, j < N →
      (client (w.calls + j) req).retryable cfg.RetryStatusCodes = true) :
    (doRequestWithRetry client req (some cfg) w).2.calls = w.calls + N ∧
      (doRequestWithRetry client req (some cfg) w).1.1 = none ∧
      (doRequestWithRetry client req (some cfg) w).1.2 ≠ none ∧
      (doRequestWithRetry client req (some cfg) w).1.2
        = some (GoError.retriesFailed (N : Int) (lastErr client req w.calls none N)) := by
  have hn : cfg.MaxRetries.toNat = N := by rw [hN]; simp
  have h := retryLoop_exhaust client req cfg N none w hall
  simp only [doRequestWithRetry, hn]
  obtain ⟨h1, h2, _⟩ := h
  rw [h1, hN]
  exact ⟨h2, rfl, by simp, rfl⟩

/-- C2, on the input of the specification: `MaxRetries = 2` and a transport
that always fails give 2 calls, a nil response and a non-nil error. -/
theorem doRequestWithRetry_exhausted_witness :
    (doRequestWithRetry transportDown exampleRequest (some policyTwo) Net.init).2.calls = 2 ∧
      (doRequestWithRetry transportDown exampleRequest (some policyTwo) Net.init).1.1 = none ∧
      (doRequestWithRetry transportDown exampleRequest (some policyTwo) Net.init).1.2 ≠ none ∧
      (doRequestWithRetry transportDown exampleRequest (some policyTwo) Net.init).1.2
        = some (GoError.retriesFailed 2 (some { msg := "connection refused" })) :=
  doRequestWithRetry_exhausted transportDown exampleRequest policyTwo 2 Net.init rfl
    (by decide)

/-- C3: without a retry policy `doRequestWithRetry` invokes the transport
exactly once, with the request, and returns the result of that call unchanged:
a response `r` that came with a nil error is returned as `(r, nil)` whatever
its status code is, and an error `e` that came with the (possibly nil)
response `ro` is returned as `(ro, e)`; nothing is closed, slept or logged. -/
theorem doRequestWithRetry_nil_config (client : Transport) (req : HttpRequest) (w : Net) :
    (∀ r, client w.calls req = DoResult.ok r →
        (doRequestWithRetry client req none w).1 = (some r, none)) ∧
      (∀ e ro, client w.calls req = DoResult.fail e ro →
        (doRequestWithRetry client req none w).1 = (ro, some (GoError.transport e))) ∧
      (doRequestWithRetry client req none w).2
        = { w with calls := w.calls + 1, sent := w.sent ++ [req] } := by
  refine ⟨?_, ?_, ?_⟩
  · intro r h
    simp [doRequestWithRetry, clientDo, h, DoResult.resp, DoResult.err]
  · intro e ro h
    simp [doRequestWithRetry, clientDo, h, DoResult.resp, DoResult.err]
  · simp [doRequestWithRetry, clientDo]

/-- C3, on four transports: a 200 answer, a 503 answer, a failed call and a
failed call that hands back a response are each returned as they came, after
one invocation. -/
theorem doRequestWithRetry_nil_config_witness :
    (doRequestWithRetry transportOk exampleRequest none Net.init).1
        = (some { StatusCode := 200, Body := 0 }, none) ∧
      (doRequestWithRetry transportBusy exampleRequest none Net.init).1
        = (some { StatusCode := 503, Body := 0 }, none) ∧
      (doRequestWithRetry transportDown exampleRequest none Net.init).1
        = (none, some (GoError.transport { msg := "connection refused" })) ∧
      (doRequestWithRetry transportRefusedRedirect exampleRequest none Net.init).1
        = (some { StatusCode := 302, Body := 0 },
            some (GoError.transport { msg := "redirect refused" })) ∧
      (doRequestWithRetry transportOk exampleRequest none Net.init).2.calls = 1 ∧
      (doRequestWithRetry transportOk exampleRequest none Net.init).2.sent = [exampleRequest] :=
  ⟨(doRequestWithRetry_nil_config transportOk exampleRequest Net.init).1 _ rfl,
    (doRequestWithRetry_nil_config transportBusy exampleRequest Net.init).1 _ rfl,
    (doRequestWithRetry_nil_config transportDown exampleRequest Net.init).2.1 _ _ rfl,
    (doRequestWithRetry_nil_config transportRefusedRedirect exampleRequest Net.init).2.1 _ _ rfl,
    congrArg Net.calls (doRequestWithRetry_nil_config transportOk exampleRequest Net.init).2.2,
    congrArg Net.sent (doRequestWithRetry_nil_config transportOk exampleRequest Net.init).2.2⟩

/-! ## http.go: the response wrapper -/

/-- A reading call on a buffered response hands back the cached bytes and
leaves the response and the stream as they are. -/
theorem ReadCall.run_buffered (lib : Stdlib) (c : ReadCall) (resp : Response)
    (b : BodyStream) (h : resp.close = true) :
    c.run lib resp b = (c.outputOn lib resp.rawdata, resp, b) := by
  cases c <;> simp [ReadCall.run, ReadCall.outputOn, Response.Text, Response.Json, h]

/-- A reading call on an unread response whose read succeeds hands back the
bytes read, buffers them and has read the stream once. -/
theorem ReadCall.run_unread_ok (lib : Stdlib) (c : ReadCall) (resp : Response)
    (b : BodyStream) (data : Bytes) (h : resp.close = false)
    (hread : b.script b.reads = .ok data) :
    c.run lib resp b
      = (c.outputOn lib data, { resp with close := true, rawdata := data },
          { b with reads := b.reads + 1 }) := by
  cases c <;>
    simp [ReadCall.run, ReadCall.outputOn, Response.Text, Response.Json, BodyStream.ReadAll,
      h, hread]

/-- C6, the claim as stated fails: on a fresh response over a stream whose
first read fails, two calls of `Text()` do not hand back the same bytes with
at most one read of the stream; the first call returns nothing, the second one
returns `late`, and the stream has been read twice. -/
theorem Text_twice_after_failed_read_counterexample :
    ¬ SameDataReadOnce exampleLib ReadCall.text ReadCall.text freshResponse streamFailsFirst ∧
      (freshResponse.Text streamFailsFirst).1 = "" ∧
      ((freshResponse.Text streamFailsFirst).2.1.Text
          (freshResponse.Text streamFailsFirst).2.2).1 = "late" ∧
      ((freshResponse.Text streamFailsFirst).2.1.Text
          (freshResponse.Text streamFailsFirst).2.2).2.2.reads = 2 := by
  refine ⟨?_, by decide, by decide, by decide⟩
  intro h
  exact absurd h.2 (by decide)

/-- A reading call on an unread response whose read fails hands back the
failure, leaves the response unread and has read the stream once. -/
theorem ReadCall.run_unread_error (lib : Stdlib) (c : ReadCall) (resp : Response)
    (b : BodyStream) (err : String) (h : resp.close = false)
    (hread : b.script b.reads = .error err) :
    c.run lib resp b = (c.outputOnError err, resp, { b with reads := b.reads + 1 }) := by
  cases c <;>
    simp [ReadCall.run, ReadCall.outputOnError, Response.Text, Response.Json,
      BodyStream.ReadAll, h, hread]

/-- A reading call on an unread response reads the stream once, whatever the
read returns. -/
theorem ReadCall.run_unread_reads (lib : Stdlib) (c : ReadCall) (resp : Response)
    (b : BodyStream) (h : resp.close = false) :
    (c.run lib resp b).2.2.reads = b.reads + 1 := by
  cases hread : b.script b.reads with
  | error err => rw [ReadCall.run_unread_error lib c resp b err h hread]
  | ok data => rw [ReadCall.run_unread_ok lib c resp b data h hread]

/-- C6, amended. (1) On an unread response whose first read of the stream
succeeds with `data`, two reading calls in a row (`Text` or `Json`, in any
combination) both hand back the body data `data`, the stream is read exactly
once in total and the response ends buffered with `data`. (2) On every
buffered response a reading call serves the cached bytes and touches neither
the response nor the stream. (3) On every unread response whose read fails
with `err`, a reading call (`Text` or `Json`) hands back the failure (nil
for `Text`, `err` for `Json`), has read the stream once and leaves the
response unread. (4) So after a failed first read the second of two calls
behaves as a first call on the stream one read further: it reads the stream
again, and the stream has been read twice in total. -/
theorem Response_buffers_only_successful_read (lib : Stdlib) (c1 c2 : ReadCall)
    (resp : Response) (b : BodyStream) (data : Bytes)
    (hunread : resp.close = false) (hread : b.script b.reads = .ok data) :
    ((readTwice lib c1 c2 resp b).1 = c1.outputOn lib data ∧
      (readTwice lib c1 c2 resp b).2.1 = c2.outputOn lib data ∧
      (readTwice lib c1 c2 resp b).2.2.1 = { resp with close := true, rawdata := data } ∧
      (readTwice lib c1 c2 resp b).2.2.2.reads = b.reads + 1 ∧
      SameDataReadOnce lib c1 c2 resp b) ∧
    (∀ (c : ReadCall) (resp1 : Response) (b1 : BodyStream), resp1.close = true →
      c.run lib resp1 b1 = (c.outputOn lib resp1.rawdata, resp1, b1)) ∧
    (∀ (c : ReadCall) (resp1 : Response) (b1 : BodyStream) (err : String),
      resp1.close = false → b1.script b1.reads = .error err →
      c.run lib resp1 b1
        = (c.outputOnError err, resp1, { b1 with reads := b1.reads + 1 })) ∧
    (∀ (c3 c4 : ReadCall) (resp1 : Response) (b1 : BodyStream) (err : String),
      resp1.close = false → b1.script b1.reads = .error err →
      readTwice lib c3 c4 resp1 b1
          = (c3.outputOnError err, c4.run lib resp1 { b1 with reads := b1.reads + 1 }) ∧
        (readTwice lib c3 c4 resp1 b1).2.2.2.reads = b1.reads + 2 ∧
        ¬ (readTwice lib c3 c4 resp1 b1).2.2.2.reads ≤ b1.reads + 1) := by
  have h1 := ReadCall.run_unread_ok lib c1 resp b data hunread hread
  have h2 := ReadCall.run_buffered lib c2 { resp with close := true, rawdata := data }
    { b with reads := b.reads + 1 } rfl
  have hrt : readTwice lib c1 c2 resp b
      = (c1.outputOn lib data, c2.outputOn lib data,
          { resp with close := true, rawdata := data }, { b with reads := b.reads + 1 }) := by
    simp only [readTwice, h1, h2]
  refine ⟨⟨?_, ?_, ?_, ?_, ?_⟩, fun c resp1 b1 h => ReadCall.run_buffered lib c resp1 b1 h,
    fun c resp1 b1 err h he => ReadCall.run_unread_error lib c resp1 b1 err h he, ?_⟩
  · rw [hrt]
  · rw [hrt]
  · rw [hrt]
  · rw [hrt]
  · refine ⟨⟨data, ?_, ?_⟩, ?_⟩
    · rw [hrt]
    · rw [hrt]
    · rw [hrt]
  · intro c3 c4 resp1 b1 err h he
    have e1 := ReadCall.run_unread_error lib c3 resp1 b1 err h he
    have e2 := ReadCall.run_unread_reads lib c4 resp1 { b1 with reads := b1.reads + 1 } h
    have hrt2 : readTwice lib c3 c4 resp1 b1
        = (c3.outputOnError err, c4.run lib resp1 { b1 with reads := b1.reads + 1 }) := by
      simp only [readTwice, e1]
    have hreads : (readTwice lib c3 c4 resp1 b1).2.2.2.reads = b1.reads + 2 := by
      rw [hrt2]; exact e2
    exact ⟨hrt2, hreads, by rw [hreads]; omega⟩

/-- C6, amended, on concrete streams. On a stream holding the JSON document
`"hello"`, `Text()` then `Json` both see it and the stream is read once. On a
stream whose first read fails with `timeout`, `Json` returns that error, a
second `Json` reads the stream again, and the stream has been read twice. -/
theorem Response_buffers_only_successful_read_witness :
    (readTwice exampleLib ReadCall.text ReadCall.json freshResponse streamHello).1
        = ReadOutput.text "\"hello\"" ∧
      (readTwice exampleLib ReadCall.text ReadCall.json freshResponse streamHello).2.1
        = ReadOutput.json (.ok (GoAny.str "hello")) ∧
      (readTwice exampleLib ReadCall.text ReadCall.json freshResponse streamHello).2.2.2.reads
        = 1 ∧
      (readTwice exampleLib ReadCall.json ReadCall.json freshResponse streamFailsFirst).1
        = ReadOutput.json (.error "timeout") ∧
      (readTwice exampleLib ReadCall.json ReadCall.json freshResponse streamFailsFirst).2.2.2.reads
        = 2 :=
  have h := Response_buffers_only_successful_read exampleLib ReadCall.text ReadCall.json
    freshResponse streamHello "\"hello\"" rfl rfl
  have hf := h.2.2.2 ReadCall.json ReadCall.json freshResponse streamFailsFirst "timeout" rfl rfl
  ⟨h.1.1, h.1.2.1, h.1.2.2.2.1, congrArg Prod.fst hf.1, hf.2.1⟩

/-! ## http.go: `DoRequest` -/

/-- C9: when `Marshal` of the payload fails, `DoRequest` returns a nil
response and the error `marshal data failed: ...`, and the network state is
unchanged: the transport is not invoked, whatever the retry policy is. -/
theorem DoRequest_marshal_error (lib : Stdlib) (client : Client) (url : String)
    (data : RequestData) (method : String) (opts : List RequestOption) (w : Net)
    (err : String) (hfail : data.Marshal lib = .error err) :
    (client.DoRequest lib url (some data) method opts w).1
        = (none, some (GoError.marshalFailed err)) ∧
      (client.DoRequest lib url (some data) method opts w).2 = w ∧
      (client.DoRequest lib url (some data) method opts w).2.calls = w.calls := by
  simp [Client.DoRequest, hfail]

/-- C9, on a JSON payload the encoder rejects, with a retry policy set. -/
theorem DoRequest_marshal_error_witness :
    ((NewClient transportOk [WithRetryConfig (some policy503)]).DoRequest exampleLib
        "http://example.test/" (some (NewJsonData (GoAny.other 0))) "POST" [] Net.init).1
        = (none, some (GoError.marshalFailed "unsupported type")) ∧
      ((NewClient transportOk [WithRetryConfig (some policy503)]).DoRequest exampleLib
        "http://example.test/" (some (NewJsonData (GoAny.other 0))) "POST" [] Net.init).2.calls
        = 0 :=
  have h := DoRequest_marshal_error exampleLib
    (NewClient transportOk [WithRetryConfig (some policy503)]) "http://example.test/"
    (NewJsonData (GoAny.other 0)) "POST" [] Net.init "unsupported type" rfl
  ⟨h.1, h.2.2⟩

/-- C4, the code at the input of the specification: with the client header
`X-A: 1` and the per-call header `X-A: 2`, `X-B: 3` the request handed to the
transport carries `X-A: 1` and `X-B: 3`; the client value wins. -/
theorem DoRequest_header_merge_client_value_wins :
    (((NewClient transportOk [WithHeader ⟨[("X-A", "1")]⟩]).DoRequest exampleLib
        "http://example.test/" none "GET"
        [RequestHeader ⟨[("X-A", "2"), ("X-B", "3")]⟩] Net.init).2.sent.map
      (fun req => (req.Header.lookup "X-A", req.Header.lookup "X-B")))
      = [(some ["1"], some ["3"])] := by
  decide

/-- C5, the code on a client with the cookie `sid=abc`: the one request that
`Get` (and `Post`, and `Head`) hands to the transport has no `Cookie` header. -/
theorem DoRequest_drops_client_cookies :
    ((NewClient transportOk [WithCookies [⟨"sid", "abc"⟩]]).Get exampleLib
        "http://example.test/" none [] Net.init).map
      (fun r => r.2.sent.map (fun req => req.Header.lookup "Cookie")) = some [none] ∧
    ((NewClient transportOk [WithCookies [⟨"sid", "abc"⟩]]).Post exampleLib
        "http://example.test/" none [] Net.init).2.sent.map
      (fun req => req.Header.lookup "Cookie") = [none] ∧
    ((NewClient transportOk [WithCookies [⟨"sid", "abc"⟩]]).Head exampleLib
        "http://example.test/" [] Net.init).2.sent.map
      (fun req => req.Header.lookup "Cookie") = [none] := by
  decide

/-- C7, the code on a client with a signing callback: the callback is invoked
once, with the constructed request and the body string `payload`, and sets
`X-Signature` on it, but the request handed to the transport has no
`X-Signature` header. -/
theorem DoRequest_drops_callback_header :
    ((NewClient transportOk [PreRequestCallbackOption (some signingCallback)]).Post exampleLib
        "http://example.test/" (some (NewRawData "payload")) [] Net.init).2.hooked.map
      (fun a => (a.1.Method, a.1.URL, a.1.Body, a.2,
        (signingCallback a.1 a.2).1.Header.lookup "X-Signature"))
      = [("POST", "http://example.test/", some "payload", "payload", some ["payload"])] ∧
    ((NewClient transportOk [PreRequestCallbackOption (some signingCallback)]).Post exampleLib
        "http://example.test/" (some (NewRawData "payload")) [] Net.init).2.sent.map
      (fun req => req.Header.lookup "X-Signature") = [none] :=
  ⟨rfl, rfl⟩

/-! ## request_data.go and request_param.go -/

/-- C8, the code on the form map `a: [1, 2]`: `Marshal` writes the single pair
`a=%5B1+2%5D`, the escaped text `[1 2]`, where the URL encoding of the map is
`a=1&a=2`; the error is nil. -/
theorem QueryRequestData_Marshal_joins_values :
    (NewQueryData ⟨[("a", ["1", "2"])]⟩).Marshal exampleLib = .ok "a=%5B1+2%5D" ∧
      Values.Encode ⟨[("a", ["1", "2"])]⟩ = "a=1&a=2" :=
  ⟨rfl, rfl⟩

/-- C10, the code on the map `q: "a&b=c"`: `Marshal` writes `q=a&b=c&`, the
value raw, where the encoder of `UrlRequestParam` writes `q=a%26b%3Dc`; `Get`
hands the transport the URL that ends in the raw text. -/
theorem MapRequestParam_Marshal_raw_value :
    (NewMapParam ⟨[("q", GoAny.str "a&b=c")]⟩).Marshal = some "q=a&b=c&" ∧
      (NewUrlRequestParam ⟨[("q", ["a&b=c"])]⟩).Marshal = some "q=a%26b%3Dc" ∧
      ((NewClient transportOk []).Get exampleLib "http://example.test/"
          (some (NewMapParam ⟨[("q", GoAny.str "a&b=c")]⟩)) [] Net.init).map
        (fun r => r.2.sent.map (fun req => req.URL)) = some ["http://example.test/?q=a&b=c&"] := by
  decide

end Httpx
